import Mathlib

/-
Verification of the flag-driven schema transformation core
(useLDFlagSchema and its zod / yup extractors and transformers).

The embedding mirrors the TypeScript sources:
  - src/types/schema.ts        (FlaggedFieldSchema, FlagValue, Flags)
  - src/utils                  (detectSchemaType, isNil)
  - src/zod/extract-flagged-schema-from-zod.ts
  - src/yup/extract-flagged-schema-from-yup.ts
  - src/hooks/use-ld-flag-schema.ts

JavaScript objects used as flag environments are modelled as association
lists where a later binding shadows an earlier one, so that the spread
`{...a, ...b}` is list append and property access is lookup from the end.
-/

namespace FlagForms

/-- FlagValue from src/types/schema.ts:
`boolean | number | Date | string | undefined | null | Array<unknown>`.
JavaScript `undefined` is an explicit value: accessing a missing object
property yields it. -/
inductive FlagValue where
  | undefinedV : FlagValue
  | null : FlagValue
  | bool (b : Bool) : FlagValue
  | num (n : Int) : FlagValue
  | str (s : String) : FlagValue
  | date (ms : Int) : FlagValue
  | arr (xs : List FlagValue) : FlagValue
deriving Repr

/-- JavaScript truthiness (`!!v`) on flag values: `undefined`, `null`,
`false`, `0` and `""` are falsy; Date objects and arrays are objects and
hence truthy. -/
def truthy : FlagValue → Bool
  | .undefinedV => false
  | .null => false
  | .bool b => b
  | .num n => n != 0
  | .str s => s != ""
  | .date _ => true
  | .arr _ => true

/-- isNil from src/utils: `value === null || value === undefined`. -/
def isNil : FlagValue → Bool
  | .undefinedV => true
  | .null => true
  | _ => false

/-- Flags from src/types/schema.ts: `Record<string, FlagValue>`, modelled
as an association list of own properties; a later binding shadows an
earlier one. -/
abbrev Flags : Type := List (String × FlagValue)

/-- Property access `flags[k]`: the last binding for `k`, or `undefined`
when the object has no own property `k`. -/
def getFlag (f : Flags) (k : String) : FlagValue :=
  (f.reverse.lookup k).getD .undefinedV

/-- Own-property test `Object.hasOwn(flags, k)`. -/
def hasOwn (f : Flags) (k : String) : Bool :=
  List.any f (fun p => p.1 == k)

/-- Object spread `{...a, ...b}`: properties of `b` overwrite those of
`a`; in the association-list model the entries of `b` come later and so
shadow those of `a`. -/
def mergeFlags (a b : Flags) : Flags := a ++ b

/-- Metadata record attached to one schema field, as read by
`field.meta()`; each control attribute is an optional flag name
(`undefined` when the key is missing), modelled as `Option String`. -/
structure Meta where
  visibilityFlag : Option String := none
  disabledFlag : Option String := none
  readonlyFlag : Option String := none
  requiredFlag : Option String := none
  omitFlag : Option String := none
  defaultValueFlag : Option String := none
deriving Repr, DecidableEq

/-- FlaggedFieldSchema from src/types/schema.ts (the attributes the
extractors actually populate). -/
structure FlaggedFieldSchema where
  name : String
  visibilityFlag : Option String := none
  disabledFlag : Option String := none
  readonlyFlag : Option String := none
  requiredFlag : Option String := none
  omitFlag : Option String := none
  defaultValueFlag : Option String := none
deriving Repr, DecidableEq

/-- Truthiness of an optional string under JavaScript coercion, as used
by the guards `meta.x && ...` and the ternaries `field.x ? _ : _`:
`undefined` and the empty string are falsy. -/
def strTruthy : Option String → Bool
  | some s => s != ""
  | none => false

/-- Guard `meta.omitFlag && flags[meta.omitFlag]` shared verbatim by both
dialect transformers (zod line 107, yup line 44). -/
def omitGate (m : Meta) (flags : Flags) : Bool :=
  match m.omitFlag with
  | some g => (g != "") && truthy (getFlag flags g)
  | none => false

/-- A zod field schema: a base type carrying its registered metadata, a
`ZodOptional` wrapper produced by `.optional()`, or a `ZodDefault`
wrapper produced by `.default(v)`. Every node can carry its own metadata
(in zod, `.meta()` reads the record registered on that very instance, so
a fresh wrapper has none). -/
inductive ZodField where
  | base (m : Meta) : ZodField
  | optionalW (m : Meta) (inner : ZodField) : ZodField
  | defaultW (m : Meta) (inner : ZodField) (v : FlagValue) : ZodField
deriving Repr

/-- Result of `(fieldSchema as ZodTypeAny)?.meta?.() || {}`: the metadata
registered on the top instance of the field, or the empty record. -/
def zodMetaOf : ZodField → Meta
  | .base m => m
  | .optionalW m _ => m
  | .defaultW m _ _ => m

/-- `.optional()`: wraps the schema in a fresh `ZodOptional` (no metadata
of its own). -/
def ZodField.optionalZ (f : ZodField) : ZodField := .optionalW {} f

/-- `.default(v)`: wraps the schema in a fresh `ZodDefault`. -/
def ZodField.defaultZ (f : ZodField) (v : FlagValue) : ZodField := .defaultW {} f v

/-- Whether the top of the field schema is a `ZodOptional` wrapper, i.e.
the rebuilt field parses `undefined` as optional input. -/
def zodIsOptionalTop : ZodField → Bool
  | .optionalW _ _ => true
  | _ => false

/-- A yup field schema: its attached metadata record (`none` models a
field, such as a `Reference`, with no `meta` method), its required
state, and its default value. -/
structure YupField where
  meta : Option Meta := none
  requiredState : Bool := false
  defaultV : Option FlagValue := none
deriving Repr

/-- Result of `typeof field.meta === 'function' ? field.meta() || {} : {}`. -/
def yupMetaOf (f : YupField) : Meta := f.meta.getD {}

/-- `.clone()`: a fresh value-identical copy of the field schema. -/
def YupField.clone (f : YupField) : YupField := f

/-- `.required()`: a new schema with the required marker set. -/
def YupField.required (f : YupField) : YupField := { f with requiredState := true }

/-- `.notRequired()`: a new schema with the required marker cleared. -/
def YupField.notRequired (f : YupField) : YupField := { f with requiredState := false }

/-- extractFlaggedSchemaFromZod: maps each entry of `zodSchema.shape` to
a `FlaggedFieldSchema` copying the five flag-name attributes from the
field's metadata (this extractor does not copy `omitFlag`, so the
record's `omitFlag` key is `undefined`). -/
def extractFlaggedSchemaFromZod (shape : List (String × ZodField)) : List FlaggedFieldSchema :=
  shape.map (fun p =>
    let meta := zodMetaOf p.2
    { name := p.1
      visibilityFlag := meta.visibilityFlag
      disabledFlag := meta.disabledFlag
      readonlyFlag := meta.readonlyFlag
      requiredFlag := meta.requiredFlag
      omitFlag := none
      defaultValueFlag := meta.defaultValueFlag })

/-- extractFlaggedSchemaFromYup: maps each entry of `yupSchema.fields` to
a `FlaggedFieldSchema`; fields without a `meta` method yield the empty
record. -/
def extractFlaggedSchemaFromYup (fields : List (String × YupField)) : List FlaggedFieldSchema :=
  fields.map (fun p =>
    let meta := yupMetaOf p.2
    { name := p.1
      visibilityFlag := meta.visibilityFlag
      disabledFlag := meta.disabledFlag
      readonlyFlag := meta.readonlyFlag
      requiredFlag := meta.requiredFlag
      omitFlag := meta.omitFlag
      defaultValueFlag := meta.defaultValueFlag })

/-- Required/optional step of the transformZodSchemaWithValues loop
(lines 111-116): guard `meta.requiredFlag && !isNil(flags[f]) &&
'optional' in zodShape`, and inside it `.optional()` exactly when the
flag value is falsy — a truthy value leaves the field unchanged. The
`'optional' in` capability test holds for every zod schema, as the
method lives on the `ZodType` prototype. -/
def zodRequiredStep (meta : Meta) (zodShape : ZodField) (flags : Flags) : ZodField :=
  match meta.requiredFlag with
  | some g =>
      if (g != "") && !(isNil (getFlag flags g)) then
        (if !(truthy (getFlag flags g)) then zodShape.optionalZ else zodShape)
      else zodShape
  | none => zodShape

/-- Default-override step of the transformZodSchemaWithValues loop
(lines 117-120): guard `meta.defaultValueFlag && !isNil(flags[f]) &&
'default' in zodShape`, then `.default(flags[f])`. The `'default' in`
capability test holds for every zod schema. -/
def zodDefaultStep (meta : Meta) (zodShape : ZodField) (flags : Flags) : ZodField :=
  match meta.defaultValueFlag with
  | some g =>
      if (g != "") && !(isNil (getFlag flags g)) then zodShape.defaultZ (getFlag flags g)
      else zodShape
  | none => zodShape

/-- Per-field body of the transformZodSchemaWithValues loop after the
omission check (lines 110-120): metadata is read once from the original
field, then the required/optional step and the default step are applied
in order to the accumulating `zodShape`. -/
def transformZodField (fieldSchema : ZodField) (flags : Flags) : ZodField :=
  let meta := zodMetaOf fieldSchema
  zodDefaultStep meta (zodRequiredStep meta fieldSchema flags) flags

/-- transformZodSchemaWithValues: iterates `base.shape` in declaration
order, skips a field whose `omitFlag` names a truthy flag value, applies
the per-field steps to the rest, and assembles a fresh shape. -/
def transformZodSchemaWithValues : List (String × ZodField) → Flags → List (String × ZodField)
  | [], _ => []
  | (key, fieldSchema) :: rest, flags =>
      let meta := zodMetaOf fieldSchema
      if omitGate meta flags then
        transformZodSchemaWithValues rest flags
      else
        (key, transformZodField fieldSchema flags) :: transformZodSchemaWithValues rest flags

/-- Per-field body of the transformYupSchemaWithValues loop after the
omission check (lines 48-52): clone the field, then the required toggle
(`meta.requiredFlag && !isNil(flags[f]) && 'required' in yupShape`,
picking `.required()` on a truthy value and `.notRequired()` on a falsy
one). The `'required' in` capability test holds for every yup `Schema`.
No other step exists: in particular this transformer never touches the
field's default value. -/
def transformYupField (fieldSchema : YupField) (flags : Flags) : YupField :=
  let meta := yupMetaOf fieldSchema
  let yupShape := fieldSchema.clone
  match meta.requiredFlag with
  | some g =>
      if (g != "") && !(isNil (getFlag flags g)) then
        (if truthy (getFlag flags g) then yupShape.required else yupShape.notRequired)
      else yupShape
  | none => yupShape

/-- transformYupSchemaWithValues: iterates `base.fields`, skips a field
whose `omitFlag` names a truthy flag value, applies the per-field steps,
and assembles a fresh shape with `object().shape(...)`. -/
def transformYupSchemaWithValues : List (String × YupField) → Flags → List (String × YupField)
  | [], _ => []
  | (key, fieldSchema) :: rest, flags =>
      let meta := yupMetaOf fieldSchema
      if omitGate meta flags then
        transformYupSchemaWithValues rest flags
      else
        (key, transformYupField fieldSchema flags) :: transformYupSchemaWithValues rest flags

/-- SchemaType from src/types/schema.ts. -/
inductive SchemaType where
  | zod : SchemaType
  | yup : SchemaType
deriving Repr, DecidableEq

/-- The universe of values a caller can pass as `schema`: a zod object
schema (recognised by `instanceof z.ZodObject`), a yup object schema
(recognised by its `describe` capability and `fields` collection), or
any other value. -/
inductive SchemaInput where
  | zodS (shape : List (String × ZodField)) : SchemaInput
  | yupS (fields : List (String × YupField)) : SchemaInput
  | otherS (tag : String) : SchemaInput
deriving Repr

/-- detectSchemaType from src/utils: `instanceof z.ZodObject` selects
zod; an object exposing `describe` and `fields` selects yup; anything
else yields `undefined`. -/
def detectSchemaType : SchemaInput → Option SchemaType
  | .zodS _ => some .zod
  | .yupS _ => some .yup
  | .otherS _ => none

/-- The hook's `fields` memo: dispatch on the detected dialect, with the
default branch returning the empty list. -/
def schemaFields : SchemaInput → List FlaggedFieldSchema
  | .zodS shape => extractFlaggedSchemaFromZod shape
  | .yupS fields => extractFlaggedSchemaFromYup fields
  | .otherS _ => []

/-- The hook's `transformedSchema` memo: dispatch on the detected
dialect, with the default branch returning the input schema itself. -/
def transformSchema (s : SchemaInput) (updatedFlags : Flags) : SchemaInput :=
  match s with
  | .zodS shape => .zodS (transformZodSchemaWithValues shape updatedFlags)
  | .yupS fields => .yupS (transformYupSchemaWithValues fields updatedFlags)
  | .otherS t => .otherS t

/-- Entry of visibilityMap:
`field.visibilityFlag ? !!updatedFlags[field.visibilityFlag] : true`. -/
def visibilityEntry (field : FlaggedFieldSchema) (updatedFlags : Flags) : Bool :=
  match field.visibilityFlag with
  | some g => if g != "" then truthy (getFlag updatedFlags g) else true
  | none => true

/-- Entry of disabledMap:
`field.disabledFlag ? !!updatedFlags[field.disabledFlag] : false`. -/
def disabledEntry (field : FlaggedFieldSchema) (updatedFlags : Flags) : Bool :=
  match field.disabledFlag with
  | some g => if g != "" then truthy (getFlag updatedFlags g) else false
  | none => false

/-- Entry of readOnlyMap:
`field.readonlyFlag ? !!updatedFlags[field.readonlyFlag] : true` — note
the default branch yields `true`. -/
def readOnlyEntry (field : FlaggedFieldSchema) (updatedFlags : Flags) : Bool :=
  match field.readonlyFlag with
  | some g => if g != "" then truthy (getFlag updatedFlags g) else true
  | none => true

/-- Entry of requiredMap:
`field.requiredFlag ? !!updatedFlags[field.requiredFlag] : false`. -/
def requiredEntry (field : FlaggedFieldSchema) (updatedFlags : Flags) : Bool :=
  match field.requiredFlag with
  | some g => if g != "" then truthy (getFlag updatedFlags g) else false
  | none => false

/-- Entry of defaultValueMap:
`field.defaultValueFlag ? updatedFlags[field.defaultValueFlag] : undefined`. -/
def defaultValueEntry (field : FlaggedFieldSchema) (updatedFlags : Flags) : FlagValue :=
  match field.defaultValueFlag with
  | some g => if g != "" then getFlag updatedFlags g else .undefinedV
  | none => .undefinedV

/-- Result record of useLDFlagSchema; the maps are `Object.fromEntries`
results, modelled as the entry lists they are built from. -/
structure HookResult where
  visibilityMap : List (String × Bool)
  disabledMap : List (String × Bool)
  readOnlyMap : List (String × Bool)
  requiredMap : List (String × Bool)
  defaultValueMap : List (String × FlagValue)
  schema : SchemaInput
deriving Repr

/-- Body of the hook's `value` memo plus the `transformedSchema` memo,
as a function of the already-merged flag environment. -/
def buildHookResult (s : SchemaInput) (updatedFlags : Flags) : HookResult :=
  let fields := schemaFields s
  { visibilityMap := fields.map (fun field => (field.name, visibilityEntry field updatedFlags))
    disabledMap := fields.map (fun field => (field.name, disabledEntry field updatedFlags))
    readOnlyMap := fields.map (fun field => (field.name, readOnlyEntry field updatedFlags))
    requiredMap := fields.map (fun field => (field.name, requiredEntry field updatedFlags))
    defaultValueMap := fields.map (fun field => (field.name, defaultValueEntry field updatedFlags))
    schema := transformSchema s updatedFlags }

/-- useLDFlagSchema: merges `{...flags, ...(overrideFlags ?? {})}` and
computes the five maps and the transformed schema from the merged
environment. -/
def useLDFlagSchema (s : SchemaInput) (flags : Flags) (overrideFlags : Option Flags) : HookResult :=
  buildHookResult s (mergeFlags flags (overrideFlags.getD []))

/-
Object-identity model of the two transformers, used for the
non-mutation claim. JavaScript field-schema objects live in a store
(addresses are indices, the store only ever grows by allocation at the
end); a schema's shape maps field names to addresses. Library calls
that build new schemas (`.optional()`, `.default(v)`, `.clone()`,
`.required()`, `.notRequired()`, `z.object(...)`, `object().shape(...)`)
allocate, they never write to an existing cell — which is exactly what
the frame theorem below makes precise.
-/

/-- Heap cell for a zod field schema: the wrapper constructors hold the
address of the wrapped schema. -/
inductive ZodCell where
  | baseC (m : Meta) : ZodCell
  | optionalC (m : Meta) (inner : Nat) : ZodCell
  | defaultC (m : Meta) (inner : Nat) (v : FlagValue) : ZodCell
deriving Repr

/-- Metadata registered on a zod cell (the top instance only). -/
def zodCellMeta : ZodCell → Meta
  | .baseC m => m
  | .optionalC m _ => m
  | .defaultC m _ _ => m

/-- Store-level body of the transformZodSchemaWithValues loop for one
retained field at address `a`: the required/optional step allocates a
fresh `ZodOptional` wrapper when it fires, then the default step
allocates a fresh `ZodDefault` wrapper when it fires; otherwise the
original address is passed through untouched. -/
def zodStoreField (a : Nat) (meta : Meta) (flags : Flags) (st : List ZodCell) :
    List ZodCell × Nat :=
  let p1 : List ZodCell × Nat :=
    match meta.requiredFlag with
    | some g =>
        if (g != "") && !(isNil (getFlag flags g)) && !(truthy (getFlag flags g)) then
          (st ++ [.optionalC {} a], st.length)
        else (st, a)
    | none => (st, a)
  match meta.defaultValueFlag with
  | some g =>
      if (g != "") && !(isNil (getFlag flags g)) then
        (p1.1 ++ [.defaultC {} p1.2 (getFlag flags g)], p1.1.length)
      else p1
  | none => p1

/-- Store-level transformZodSchemaWithValues: walks the shape in order,
reads each field's metadata from the store, skips omitted fields, and
returns the grown store together with the freshly assembled shape. -/
def transformZodStore (shape : List (String × Nat)) (flags : Flags) (st : List ZodCell) :
    List ZodCell × List (String × Nat) :=
  match shape with
  | [] => (st, [])
  | (key, a) :: rest =>
      let meta := match st[a]? with
        | some c => zodCellMeta c
        | none => {}
      if omitGate meta flags then
        transformZodStore rest flags st
      else
        let p := zodStoreField a meta flags st
        let q := transformZodStore rest flags p.1
        (q.1, (key, p.2) :: q.2)

/-- Store-level body of the transformYupSchemaWithValues loop for one
retained field value `f`: `fieldSchema.clone()` allocates a copy, and
the required toggle, when it fires, allocates a further new schema
derived from that clone. -/
def yupStoreField (f : YupField) (meta : Meta) (flags : Flags) (st : List YupField) :
    List YupField × Nat :=
  let st1 := st ++ [f.clone]
  let c0 := st.length
  match meta.requiredFlag with
  | some g =>
      if (g != "") && !(isNil (getFlag flags g)) then
        (st1 ++ [if truthy (getFlag flags g) then f.clone.required else f.clone.notRequired],
         st1.length)
      else (st1, c0)
  | none => (st1, c0)

/-- Store-level transformYupSchemaWithValues: walks `base.fields` in
order, reads each field and its metadata from the store, skips omitted
fields, and returns the grown store together with the fresh shape. -/
def transformYupStore (fields : List (String × Nat)) (flags : Flags) (st : List YupField) :
    List YupField × List (String × Nat) :=
  match fields with
  | [] => (st, [])
  | (key, a) :: rest =>
      let f := (st[a]?).getD {}
      let meta := yupMetaOf f
      if omitGate meta flags then
        transformYupStore rest flags st
      else
        let p := yupStoreField f meta flags st
        let q := transformYupStore rest flags p.1
        (q.1, (key, p.2) :: q.2)

/-! Helper lemmas about the flag-environment model. -/

theorem lookup_append (xs ys : List (String × FlagValue)) (k : String) :
    (xs ++ ys).lookup k =
      match xs.lookup k with
      | some v => some v
      | none => ys.lookup k := by
  induction xs with
  | nil => simp [List.lookup]
  | cons p t ih =>
      obtain ⟨pk, pv⟩ := p
      by_cases h : k = pk
      · simp [List.lookup, h]
      · have hb : (k == pk) = false := beq_eq_false_iff_ne.mpr h
        simp only [List.cons_append, List.lookup, hb, List.append_eq]
        rw [ih]

theorem hasOwn_eq_isSome (l : List (String × FlagValue)) (k : String) :
    hasOwn l k = (l.lookup k).isSome := by
  induction l with
  | nil => simp [hasOwn, List.lookup]
  | cons p t ih =>
      obtain ⟨pk, pv⟩ := p
      by_cases h : k = pk
      · subst h
        simp [hasOwn, List.lookup]
      · have hb : (k == pk) = false := beq_eq_false_iff_ne.mpr h
        have hb' : (pk == k) = false := beq_eq_false_iff_ne.mpr (Ne.symm h)
        simp [hasOwn, List.lookup, hb, hb'] at ih ⊢
        exact ih

theorem hasOwn_reverse (l : List (String × FlagValue)) (k : String) :
    hasOwn l.reverse k = hasOwn l k := by
  rw [Bool.eq_iff_iff]
  simp [hasOwn, List.any_eq_true]

/-- Property access on a spread `{...a, ...b}`: an own property of `b`
wins, anything else falls back to `a`. -/
theorem getFlag_append (a b : Flags) (k : String) :
    getFlag (a ++ b) k = if hasOwn b k then getFlag b k else getFlag a k := by
  unfold getFlag
  rw [List.reverse_append, lookup_append]
  have hb : hasOwn b k = (b.reverse.lookup k).isSome := by
    rw [← hasOwn_reverse, hasOwn_eq_isSome]
  cases hl : b.reverse.lookup k with
  | some v => simp [hb, hl]
  | none => simp [hb, hl]

/-- A flag name with no own property in the environment reads as
`undefined`. -/
theorem getFlag_eq_undef_of_not_hasOwn (l : Flags) (k : String)
    (h : hasOwn l k = false) : getFlag l k = .undefinedV := by
  unfold getFlag
  have : l.reverse.lookup k = none := by
    have := hasOwn_eq_isSome l.reverse k
    rw [hasOwn_reverse, h] at this
    exact Option.not_isSome_iff_eq_none.mp (by simp [← this])
  simp [this]

/-! Helper lemmas about the store model: stores only grow by allocation. -/

theorem storeExt_trans {α : Type} {a b c : List α}
    (h1 : ∃ l, b = a ++ l) (h2 : ∃ l, c = b ++ l) : ∃ l, c = a ++ l := by
  obtain ⟨l1, rfl⟩ := h1
  obtain ⟨l2, rfl⟩ := h2
  exact ⟨l1 ++ l2, List.append_assoc a l1 l2⟩

theorem zodStoreField_ext (a : Nat) (meta : Meta) (flags : Flags) (st : List ZodCell) :
    ∃ l, (zodStoreField a meta flags st).1 = st ++ l := by
  unfold zodStoreField
  cases hr : meta.requiredFlag with
  | none =>
      cases hd : meta.defaultValueFlag with
      | none => exact ⟨[], (List.append_nil st).symm⟩
      | some g =>
          simp only []
          split
          · exact ⟨_, rfl⟩
          · exact ⟨[], (List.append_nil st).symm⟩
  | some g =>
      cases hd : meta.defaultValueFlag with
      | none =>
          simp only []
          split
          · exact ⟨_, rfl⟩
          · exact ⟨[], (List.append_nil st).symm⟩
      | some g' =>
          simp only []
          split
          · split
            · exact ⟨_, List.append_assoc st _ _⟩
            · exact ⟨_, rfl⟩
          · split
            · exact ⟨_, rfl⟩
            · exact ⟨[], (List.append_nil st).symm⟩

theorem transformZodStore_ext (shape : List (String × Nat)) (flags : Flags)
    (st : List ZodCell) : ∃ l, (transformZodStore shape flags st).1 = st ++ l := by
  induction shape generalizing st with
  | nil => exact ⟨[], (List.append_nil st).symm⟩
  | cons p rest ih =>
      obtain ⟨key, a⟩ := p
      simp only [transformZodStore]
      split
      · exact ih st
      · exact storeExt_trans (zodStoreField_ext a _ flags st) (ih _)

theorem yupStoreField_ext (f : YupField) (meta : Meta) (flags : Flags)
    (st : List YupField) : ∃ l, (yupStoreField f meta flags st).1 = st ++ l := by
  unfold yupStoreField
  cases hr : meta.requiredFlag with
  | none => exact ⟨_, rfl⟩
  | some g =>
      simp only []
      split
      · exact ⟨_, List.append_assoc st _ _⟩
      · exact ⟨_, rfl⟩

theorem transformYupStore_ext (fields : List (String × Nat)) (flags : Flags)
    (st : List YupField) : ∃ l, (transformYupStore fields flags st).1 = st ++ l := by
  induction fields generalizing st with
  | nil => exact ⟨[], (List.append_nil st).symm⟩
  | cons p rest ih =>
      obtain ⟨key, a⟩ := p
      simp only [transformYupStore]
      split
      · exact ih st
      · exact storeExt_trans (yupStoreField_ext _ _ flags st) (ih _)

/-! Helper lemmas about retained field keys. -/

theorem transformZod_keys (shape : List (String × ZodField)) (flags : Flags) :
    (transformZodSchemaWithValues shape flags).map Prod.fst =
      (shape.filter (fun p => !(omitGate (zodMetaOf p.2) flags))).map Prod.fst := by
  induction shape with
  | nil => rfl
  | cons p rest ih =>
      obtain ⟨key, f⟩ := p
      simp only [transformZodSchemaWithValues]
      by_cases h : omitGate (zodMetaOf f) flags
      · simp [h, List.filter_cons, ih]
      · simp [h, List.filter_cons, ih]

theorem transformYup_keys (fields : List (String × YupField)) (flags : Flags) :
    (transformYupSchemaWithValues fields flags).map Prod.fst =
      (fields.filter (fun p => !(omitGate (yupMetaOf p.2) flags))).map Prod.fst := by
  induction fields with
  | nil => rfl
  | cons p rest ih =>
      obtain ⟨key, f⟩ := p
      simp only [transformYupSchemaWithValues]
      by_cases h : omitGate (yupMetaOf f) flags
      · simp [h, List.filter_cons, ih]
      · simp [h, List.filter_cons, ih]

/-- The yup per-field transform returns the clone, the clone made
required, or the clone made not-required — nothing else. -/
theorem transformYupField_cases (f : YupField) (flags : Flags) :
    transformYupField f flags = f.clone ∨ transformYupField f flags = f.clone.required ∨
    transformYupField f flags = f.clone.notRequired := by
  simp only [transformYupField]
  cases (yupMetaOf f).requiredFlag with
  | none => exact Or.inl rfl
  | some g =>
      by_cases h1 : (g != "" && !isNil (getFlag flags g)) = true
      · by_cases h2 : truthy (getFlag flags g) = true
        · simp [h1, h2]
        · simp [h1, h2]
      · simp [h1]

/-! Claim theorems. -/

/-- C1, counterexample: for a field whose metadata declares no
readonlyFlag the claim asserts the readOnlyMap entry is `false`
(editable); the implementation produces `true` for such a field under
the empty flag environment. -/
theorem claim1_counterexample :
    (useLDFlagSchema (.zodS [("a", .base {})]) [] none).readOnlyMap = [("a", true)] ∧
    (useLDFlagSchema (.zodS [("a", .base {})]) [] none).readOnlyMap ≠ [("a", false)] := by
  have h : (useLDFlagSchema (.zodS [("a", .base {})]) [] none).readOnlyMap = [("a", true)] := rfl
  exact ⟨h, by rw [h]; decide⟩

/-- C1 (amended): the readOnlyMap entry of a field whose metadata
declares no readonlyFlag is `true` (read-only) for every flag
environment — the implementation's default is the alternate documented
policy, not the `false`/editable one; when a readonlyFlag is declared,
the entry is `true` iff the merged flag environment's value for that
flag is truthy. -/
theorem claim1_readonly_policy :
    (∀ s flags ov, (useLDFlagSchema s flags ov).readOnlyMap =
        (schemaFields s).map (fun field =>
          (field.name, readOnlyEntry field (mergeFlags flags (ov.getD []))))) ∧
    (∀ field u, field.readonlyFlag = none → readOnlyEntry field u = true) ∧
    (∀ field u g, field.readonlyFlag = some g → g ≠ "" →
        readOnlyEntry field u = truthy (getFlag u g)) := by
  refine ⟨fun s flags ov => rfl, ?_, ?_⟩
  · intro field u h
    simp [readOnlyEntry, h]
  · intro field u g h hg
    simp [readOnlyEntry, h, hg]

/-- C1 witness: the amended statement evaluated at a field with no
readonlyFlag and at a field whose readonlyFlag reads a truthy value. -/
theorem claim1_witness :
    readOnlyEntry ⟨"a", none, none, none, none, none, none⟩ [] = true ∧
    readOnlyEntry ⟨"b", none, none, some "ro", none, none, none⟩ [("ro", .bool true)] =
      truthy (getFlag [("ro", .bool true)] "ro") :=
  ⟨claim1_readonly_policy.2.1 _ [] rfl,
   claim1_readonly_policy.2.2 _ _ "ro" rfl (by decide)⟩

/-- C2: the visibilityMap entry is `true` when the field declares no
visibilityFlag, and `Boolean(mergedFlags[visibilityFlag])` when it
declares one; a declared flag name with no own property in the merged
environment reads `undefined` and hence yields `false`. -/
theorem claim2_visibility :
    (∀ s flags ov, (useLDFlagSchema s flags ov).visibilityMap =
        (schemaFields s).map (fun field =>
          (field.name, visibilityEntry field (mergeFlags flags (ov.getD []))))) ∧
    (∀ field u, field.visibilityFlag = none → visibilityEntry field u = true) ∧
    (∀ field u g, field.visibilityFlag = some g → g ≠ "" →
        visibilityEntry field u = truthy (getFlag u g)) ∧
    (∀ u g, hasOwn u g = false → truthy (getFlag u g) = false) := by
  refine ⟨fun s flags ov => rfl, ?_, ?_, ?_⟩
  · intro field u h
    simp [visibilityEntry, h]
  · intro field u g h hg
    simp [visibilityEntry, h, hg]
  · intro u g h
    rw [getFlag_eq_undef_of_not_hasOwn u g h]
    rfl

/-- C2 witness: a declared, present-but-false flag gives `false`; a
declared name absent from the environment coerces to `false`; no
declared flag gives `true`. -/
theorem claim2_witness :
    visibilityEntry ⟨"ln", some "show", none, none, none, none, none⟩ [("show", .bool false)] =
      truthy (getFlag [("show", .bool false)] "show") ∧
    truthy (getFlag [("show", .bool false)] "absent") = false ∧
    visibilityEntry ⟨"e", none, none, none, none, none, none⟩ [] = true :=
  ⟨claim2_visibility.2.2.1 _ _ "show" rfl (by decide),
   claim2_visibility.2.2.2 [("show", .bool false)] "absent" (by decide),
   claim2_visibility.2.1 _ [] rfl⟩

/-- C3: both dialect transformers retain exactly the fields whose
omitFlag is unset or reads a non-truthy (in particular absent) flag
value: the retained key sequence is the input keys filtered by the
omission gate, and the gate is `Boolean(flags[omitFlag])` when the flag
name is declared and `false` when it is not. -/
theorem claim3_omission :
    (∀ shape flags, (transformZodSchemaWithValues shape flags).map Prod.fst =
        (shape.filter (fun p => !(omitGate (zodMetaOf p.2) flags))).map Prod.fst) ∧
    (∀ fields flags, (transformYupSchemaWithValues fields flags).map Prod.fst =
        (fields.filter (fun p => !(omitGate (yupMetaOf p.2) flags))).map Prod.fst) ∧
    (∀ m flags g, m.omitFlag = some g → g ≠ "" →
        omitGate m flags = truthy (getFlag flags g)) ∧
    (∀ m flags, m.omitFlag = none → omitGate m flags = false) ∧
    (∀ flags g, hasOwn flags g = false → truthy (getFlag flags g) = false) := by
  refine ⟨transformZod_keys, transformYup_keys, ?_, ?_, ?_⟩
  · intro m flags g h hg
    simp [omitGate, h, hg]
  · intro m flags h
    simp [omitGate, h]
  · intro flags g h
    rw [getFlag_eq_undef_of_not_hasOwn flags g h]
    rfl

/-- C3 witness: a truthy omit flag omits the field, an absent one
retains it, and a field without omitFlag is retained. -/
theorem claim3_witness :
    (transformZodSchemaWithValues
        [("dbg", .base { omitFlag := some "hide" }), ("k", .base {})]
        [("hide", .bool true)]).map Prod.fst =
      ([("dbg", ZodField.base { omitFlag := some "hide" }), ("k", .base {})].filter
        (fun p => !(omitGate (zodMetaOf p.2) [("hide", FlagValue.bool true)]))).map Prod.fst ∧
    omitGate { omitFlag := some "hide" } [("hide", .bool true)] =
      truthy (getFlag [("hide", .bool true)] "hide") ∧
    omitGate {} [("hide", .bool true)] = false ∧
    truthy (getFlag [] "hide") = false :=
  ⟨claim3_omission.1 _ _,
   claim3_omission.2.2.1 _ _ "hide" rfl (by decide),
   claim3_omission.2.2.2.1 _ _ rfl,
   claim3_omission.2.2.2.2 [] "hide" (by decide)⟩

/-- C4, counterexample: a zod field that is optional and declares
`requiredFlag = "r"`, under the environment `{r: true}` (present and
truthy), is returned unchanged — still optional — although the claim
demands it be marked required. -/
theorem claim4_counterexample :
    transformZodSchemaWithValues
        [("a", .optionalW { requiredFlag := some "r" } (.base {}))] [("r", .bool true)] =
      [("a", .optionalW { requiredFlag := some "r" } (.base {}))] ∧
    isNil (getFlag [("r", FlagValue.bool true)] "r") = false ∧
    truthy (getFlag [("r", FlagValue.bool true)] "r") = true ∧
    zodIsOptionalTop (ZodField.optionalW { requiredFlag := some "r" } (.base {})) = true ∧
    zodIsOptionalTop (ZodField.optionalW { requiredFlag := some "r" } (.base {})) ≠ false :=
  ⟨rfl, rfl, rfl, rfl, by decide⟩

/-- C4 (amended): for yup the claim holds as stated: with a present
flag value the field is `.required()` on truthy and `.notRequired()` on
falsy, and with an absent value the clone keeps its original state. For
zod, a present falsy value wraps the field `.optional()`, but a present
truthy value leaves the field unchanged (an originally optional field
stays optional instead of becoming required); an absent value leaves it
unchanged as well. Fields without requiredFlag are untouched in both
dialects. -/
theorem claim4_required_toggle :
    (∀ f flags g, (yupMetaOf f).requiredFlag = some g → g ≠ "" →
        (isNil (getFlag flags g) = false →
          (transformYupField f flags).requiredState = truthy (getFlag flags g)) ∧
        (isNil (getFlag flags g) = true → transformYupField f flags = f.clone)) ∧
    (∀ meta f flags g, meta.requiredFlag = some g → g ≠ "" →
        (isNil (getFlag flags g) = false → truthy (getFlag flags g) = false →
          zodRequiredStep meta f flags = f.optionalZ) ∧
        (isNil (getFlag flags g) = false → truthy (getFlag flags g) = true →
          zodRequiredStep meta f flags = f) ∧
        (isNil (getFlag flags g) = true → zodRequiredStep meta f flags = f)) ∧
    (∀ meta f flags, meta.requiredFlag = none → zodRequiredStep meta f flags = f) ∧
    (∀ f flags, (yupMetaOf f).requiredFlag = none → transformYupField f flags = f.clone) := by
  refine ⟨?_, ?_, ?_, ?_⟩
  · intro f flags g h hg
    constructor
    · intro hnil
      cases ht : truthy (getFlag flags g) <;>
        simp [transformYupField, h, hg, hnil, ht,
          YupField.required, YupField.notRequired]
    · intro hnil
      simp [transformYupField, h, hnil]
  · intro meta f flags g h hg
    refine ⟨?_, ?_, ?_⟩
    · intro hnil ht
      simp [zodRequiredStep, h, hg, hnil, ht]
    · intro hnil ht
      simp [zodRequiredStep, h, hg, hnil, ht]
    · intro hnil
      simp [zodRequiredStep, h, hnil]
  · intro meta f flags h
    simp [zodRequiredStep, h]
  · intro f flags h
    simp [transformYupField, h]

/-- C4 witness: the amended statement evaluated on a yup field toggled
required by a truthy flag and a zod field wrapped optional by a falsy
flag. -/
theorem claim4_witness :
    (transformYupField { meta := some { requiredFlag := some "r" } } [("r", .bool true)]).requiredState =
      truthy (getFlag [("r", .bool true)] "r") ∧
    zodRequiredStep { requiredFlag := some "r" } (.base { requiredFlag := some "r" })
        [("r", .bool false)] = ZodField.optionalZ (.base { requiredFlag := some "r" }) ∧
    zodRequiredStep { requiredFlag := some "r" } (.base { requiredFlag := some "r" })
        [] = ZodField.base { requiredFlag := some "r" } :=
  ⟨(claim4_required_toggle.1 { meta := some { requiredFlag := some "r" } }
      [("r", .bool true)] "r" rfl (by decide)).1 rfl,
   (claim4_required_toggle.2.1 { requiredFlag := some "r" } (.base { requiredFlag := some "r" })
      [("r", .bool false)] "r" rfl (by decide)).1 rfl rfl,
   (claim4_required_toggle.2.1 { requiredFlag := some "r" } (.base { requiredFlag := some "r" })
      [] "r" rfl (by decide)).2.2 rfl⟩

/-- C5, counterexample: a yup field declaring `defaultValueFlag = "d"`
under the environment `{d: "dark"}` (present) comes out of the yup
transformer with no default attached, although the claim demands the
flag value become the field's default. -/
theorem claim5_counterexample :
    isNil (getFlag [("d", FlagValue.str "dark")] "d") = false ∧
    (transformYupField { meta := some { defaultValueFlag := some "d" } }
        [("d", .str "dark")]).defaultV = none ∧
    (transformYupField { meta := some { defaultValueFlag := some "d" } }
        [("d", .str "dark")]).defaultV ≠ some (.str "dark") := by
  have h : (transformYupField { meta := some { defaultValueFlag := some "d" } }
      [("d", FlagValue.str "dark")]).defaultV = none := rfl
  exact ⟨rfl, h, by rw [h]; exact fun hc => Option.noConfusion hc⟩

/-- C5 (amended): for zod the claim holds: a declared defaultValueFlag
whose flag value is present is attached with `.default(value)` (every
zod field type supports the operation). The yup transformer, however,
never attaches a flag-driven default: the transformed field always
keeps its original default value. -/
theorem claim5_default_attach :
    (∀ meta f flags g, meta.defaultValueFlag = some g → g ≠ "" →
        isNil (getFlag flags g) = false →
        zodDefaultStep meta f flags = f.defaultZ (getFlag flags g)) ∧
    (∀ meta f flags, meta.defaultValueFlag = none → zodDefaultStep meta f flags = f) ∧
    (∀ f flags, (transformYupField f flags).defaultV = f.defaultV) := by
  refine ⟨?_, ?_, ?_⟩
  · intro meta f flags g h hg hnil
    simp [zodDefaultStep, h, hg, hnil]
  · intro meta f flags h
    simp [zodDefaultStep, h]
  · intro f flags
    rcases transformYupField_cases f flags with h | h | h <;> rw [h] <;> rfl

/-- C5 witness: the amended statement evaluated on a zod field whose
default is overridden by the flag value and a yup field whose default
survives unchanged. -/
theorem claim5_witness :
    zodDefaultStep { defaultValueFlag := some "d" } (.base { defaultValueFlag := some "d" })
        [("d", .str "dark")] =
      ZodField.defaultZ (.base { defaultValueFlag := some "d" })
        (getFlag [("d", .str "dark")] "d") ∧
    (transformYupField { meta := some { defaultValueFlag := some "d" }, defaultV := some (.num 3) }
        [("d", .str "dark")]).defaultV = some (.num 3) :=
  ⟨claim5_default_attach.1 _ _ [("d", .str "dark")] "d" rfl (by decide) rfl,
   claim5_default_attach.2.2 _ _⟩

/-- C6: processing with a base environment and an override environment
equals processing with the single pre-merged environment and no
override, and property access on the merged environment is the override
entry whenever the override declares the key. -/
theorem claim6_override_merge :
    (∀ s flags ov, useLDFlagSchema s flags (some ov) =
        useLDFlagSchema s (mergeFlags flags ov) none) ∧
    (∀ flags ov k, getFlag (mergeFlags flags ov) k =
        if hasOwn ov k then getFlag ov k else getFlag flags k) := by
  constructor
  · intro s flags ov
    unfold useLDFlagSchema
    simp [mergeFlags]
  · intro flags ov k
    exact getFlag_append flags ov k

/-- C7: an input the dialect detector classifies as neither zod nor yup
yields empty extracted metadata, all per-field maps empty, and the
input schema passed through unchanged. -/
theorem claim7_unknown_dialect :
    ∀ s flags ov, detectSchemaType s = none →
      schemaFields s = [] ∧
      useLDFlagSchema s flags ov =
        { visibilityMap := [], disabledMap := [], readOnlyMap := [], requiredMap := [],
          defaultValueMap := [], schema := s } := by
  intro s flags ov h
  cases s with
  | zodS shape => exact absurd h (by simp [detectSchemaType])
  | yupS fields => exact absurd h (by simp [detectSchemaType])
  | otherS t => exact ⟨rfl, rfl⟩

/-- C7 witness: the theorem evaluated at a non-schema input. -/
theorem claim7_witness :
    schemaFields (.otherS "plain-object") = [] ∧
    useLDFlagSchema (.otherS "plain-object") [("f", .bool true)] none =
      { visibilityMap := [], disabledMap := [], readOnlyMap := [], requiredMap := [],
        defaultValueMap := [], schema := .otherS "plain-object" } :=
  claim7_unknown_dialect (.otherS "plain-object") [("f", .bool true)] none rfl

/-- C8: each of the five output maps carries exactly the extracted
field names as keys, in order, and the extractors return one record per
field of the original schema — so a field omitted from the transformed
schema still has its entry in every map. -/
theorem claim8_map_keys :
    (∀ s flags ov,
      ((useLDFlagSchema s flags ov).visibilityMap.map Prod.fst =
        (schemaFields s).map (fun field => field.name)) ∧
      ((useLDFlagSchema s flags ov).disabledMap.map Prod.fst =
        (schemaFields s).map (fun field => field.name)) ∧
      ((useLDFlagSchema s flags ov).readOnlyMap.map Prod.fst =
        (schemaFields s).map (fun field => field.name)) ∧
      ((useLDFlagSchema s flags ov).requiredMap.map Prod.fst =
        (schemaFields s).map (fun field => field.name)) ∧
      ((useLDFlagSchema s flags ov).defaultValueMap.map Prod.fst =
        (schemaFields s).map (fun field => field.name))) ∧
    (∀ shape, (schemaFields (.zodS shape)).map (fun field => field.name) =
        shape.map Prod.fst) ∧
    (∀ fields, (schemaFields (.yupS fields)).map (fun field => field.name) =
        fields.map Prod.fst) := by
  refine ⟨?_, ?_, ?_⟩
  · intro s flags ov
    refine ⟨?_, ?_, ?_, ?_, ?_⟩ <;>
      simp [useLDFlagSchema, buildHookResult, List.map_map, Function.comp]
  · intro shape
    simp [schemaFields, extractFlaggedSchemaFromZod, List.map_map, Function.comp]
  · intro fields
    simp [schemaFields, extractFlaggedSchemaFromYup, List.map_map, Function.comp]

/-- C10: the requiredMap is computed from the extracted flag names
alone — entry `false` when no requiredFlag is declared (whatever the
base schema's own required state, which the map provably ignores), and
`Boolean(mergedFlags[requiredFlag])` when one is declared, so a
declared name absent from the environment yields `false`. -/
theorem claim10_requiredmap_flag_driven :
    (∀ s flags ov, (useLDFlagSchema s flags ov).requiredMap =
        (schemaFields s).map (fun field =>
          (field.name, requiredEntry field (mergeFlags flags (ov.getD []))))) ∧
    (∀ field u, field.requiredFlag = none → requiredEntry field u = false) ∧
    (∀ field u g, field.requiredFlag = some g → g ≠ "" →
        requiredEntry field u = truthy (getFlag u g)) ∧
    (∀ u g, hasOwn u g = false → truthy (getFlag u g) = false) ∧
    (∀ fields flags ov, (useLDFlagSchema (.yupS fields) flags ov).requiredMap =
        (useLDFlagSchema (.yupS (fields.map (fun p => (p.1, YupField.required p.2))))
          flags ov).requiredMap) := by
  refine ⟨fun s flags ov => rfl, ?_, ?_, ?_, ?_⟩
  · intro field u h
    simp [requiredEntry, h]
  · intro field u g h hg
    simp [requiredEntry, h, hg]
  · intro u g h
    rw [getFlag_eq_undef_of_not_hasOwn u g h]
    rfl
  · intro fields flags ov
    simp [useLDFlagSchema, buildHookResult, schemaFields, extractFlaggedSchemaFromYup,
      List.map_map, Function.comp, yupMetaOf, YupField.required]

/-- C10 witness: a yup field marked required in the base schema but
declaring no requiredFlag maps to `false`; a declared flag reads its
merged value; a declared-but-absent flag coerces to `false`. -/
theorem claim10_witness :
    requiredEntry ⟨"a", none, none, none, none, none, none⟩ [] = false ∧
    requiredEntry ⟨"b", none, none, none, some "req", none, none⟩ [("req", .bool true)] =
      truthy (getFlag [("req", .bool true)] "req") ∧
    truthy (getFlag [] "req") = false ∧
    (useLDFlagSchema (.yupS [("n", { requiredState := true })]) [] none).requiredMap =
      (useLDFlagSchema (.yupS ([("n", ({ requiredState := true } : YupField))].map
        (fun p => (p.1, YupField.required p.2)))) [] none).requiredMap :=
  ⟨claim10_requiredmap_flag_driven.2.1 _ [] rfl,
   claim10_requiredmap_flag_driven.2.2.1 _ _ "req" rfl (by decide),
   claim10_requiredmap_flag_driven.2.2.2.1 [] "req" (by decide),
   claim10_requiredmap_flag_driven.2.2.2.2 _ [] none⟩

/-- C9: neither transformer mutates the caller's schema: in the
object-store model every call only allocates (the output store extends
the input store), so every field-definition object existing before the
call reads back unchanged at its old address afterwards; the rebuilt
shape is assembled from fresh cells. -/
theorem claim9_no_mutation :
    (∀ shape flags st, ∃ l, (transformZodStore shape flags st).1 = st ++ l) ∧
    (∀ fields flags st, ∃ l, (transformYupStore fields flags st).1 = st ++ l) ∧
    (∀ (shape : List (String × Nat)) (flags : Flags) (st : List ZodCell) (i : Nat)
        (c : ZodCell), st[i]? = some c →
        ((transformZodStore shape flags st).1)[i]? = some c) ∧
    (∀ (fields : List (String × Nat)) (flags : Flags) (st : List YupField) (i : Nat)
        (c : YupField), st[i]? = some c →
        ((transformYupStore fields flags st).1)[i]? = some c) := by
  have hlt : ∀ {α : Type} (l : List α) (i : Nat) (c : α), l[i]? = some c → i < l.length := by
    intro α l i c h
    by_contra hge
    push_neg at hge
    rw [List.getElem?_eq_none hge] at h
    exact Option.noConfusion h
  refine ⟨transformZodStore_ext, transformYupStore_ext, ?_, ?_⟩
  · intro shape flags st i c h
    obtain ⟨l, hl⟩ := transformZodStore_ext shape flags st
    rw [hl, List.getElem?_append, if_pos (hlt st i c h)]
    exact h
  · intro fields flags st i c h
    obtain ⟨l, hl⟩ := transformYupStore_ext fields flags st
    rw [hl, List.getElem?_append, if_pos (hlt st i c h)]
    exact h

/-- C9 witness: a store holding one zod field and one yup field whose
transforms allocate wrappers; the original cells read back unchanged. -/
theorem claim9_witness :
    ((transformZodStore [("a", 0)] [("r", .bool false)]
        [.baseC { requiredFlag := some "r" }]).1)[0]? =
      some (.baseC { requiredFlag := some "r" }) ∧
    ((transformYupStore [("a", 0)] [("r", .bool true)]
        [{ meta := some { requiredFlag := some "r" } }]).1)[0]? =
      some { meta := some { requiredFlag := some "r" } } :=
  ⟨claim9_no_mutation.2.2.1 [("a", 0)] [("r", .bool false)]
      [.baseC { requiredFlag := some "r" }] 0 _ rfl,
   claim9_no_mutation.2.2.2 [("a", 0)] [("r", .bool true)]
      [{ meta := some { requiredFlag := some "r" } }] 0 _ rfl⟩

end FlagForms
